import Mathlib

/-!
Verification of the namespaced key/value store of the Rin blog platform.

The development shallowly embeds the store-facing code of the repository:

* `TestCacheImpl` (src/server/tests/test-api-client.ts): the Map-backed
  implementation of the `CacheImpl` interface (src/server/src/core/types.ts)
  used by the service tests.  Its operations are translated one by one.
* `LazyInitContainer` and the container middleware (src/server/src/core/types.ts),
  plus the scheduled job (worker entry point): the construction sites of the
  three store namespaces.
* `ConfigService` (src/server/src/services/config.ts): the masking of
  sensitive configuration fields and the cache-clearing admin route.
* A Store model written from the specification for the parts of
  `src/utils/cache.ts` that are not part of the sources at hand (buffered
  writes, suffix queries, backend dispatch); those definitions carry a
  `Modelled from the spec:` doc comment.

Stored values are the JSON-like data the store handles (design note: a tagged
variant of null, boolean, number, string, array, object).
-/

set_option autoImplicit false

namespace Rin

/-- JSON-serializable stored value: the tagged variant of §3 / design notes
(null, boolean, number, string, ordered list, string-keyed map). -/
inductive Value where
  | null
  | bool (b : Bool)
  | num (n : Int)
  | str (s : String)
  | arr (xs : List Value)
  | obj (fs : List (String × Value))

/-- `v === null` of JavaScript: the stored value is the absent marker. -/
def Value.isNull : Value → Bool
  | .null => true
  | _ => false

/-- JavaScript truthiness of a stored value (`null`, `false`, `0`, `""` are
falsy; arrays and objects are always truthy). -/
def Value.truthy : Value → Bool
  | .null => false
  | .bool b => b
  | .num n => n != 0
  | .str s => s != ""
  | .arr _ => true
  | .obj _ => true

/-- The in-memory contents of one namespace: an insertion-ordered key/value
map (a JS `Map<string, any>` respectively a plain object). -/
abbrev CacheData := List (String × Value)

/-- First-match lookup, the semantics of `Map.get` / property access on the
states reachable by the map operations (which keep keys unique). -/
def lookupKey : CacheData → String → Option Value
  | [], _ => none
  | e :: t, k => if e.1 = k then some e.2 else lookupKey t k

/-- `Map.set` / property assignment: update the existing entry in place
(preserving insertion order) or append a fresh one. -/
def mapSet : CacheData → String → Value → CacheData
  | [], k, v => [(k, v)]
  | e :: t, k, v => if e.1 = k then (k, v) :: t else e :: mapSet t k v

/-- `key.startsWith(prefix)` of JavaScript. -/
def strStartsWith (s p : String) : Bool := p.data.isPrefixOf s.data

/-- `key.endsWith(suffix)` of JavaScript. -/
def strEndsWith (s p : String) : Bool := p.data.isSuffixOf s.data

namespace TestCacheImpl

/-- `TestCacheImpl.get`: `this.data.get(key) ?? null` — a missing key is
reported as the absent marker `null`. -/
def get (d : CacheData) (k : String) : Value := (lookupKey d k).getD Value.null

/-- `TestCacheImpl.set`: `this.data.set(key, value)` (the `_save` flag is
ignored by this implementation). -/
def set (d : CacheData) (k : String) (v : Value) : CacheData := mapSet d k v

/-- `TestCacheImpl.delete`: `this.data.delete(key)`. -/
def del (d : CacheData) (k : String) : CacheData := d.filter (fun e => !(e.1 == k))

/-- `TestCacheImpl.deletePrefix`: delete every key of the map that starts
with the given prefix. -/
def delPrefix (d : CacheData) (p : String) : CacheData :=
  d.filter (fun e => !(strStartsWith e.1 p))

/-- `TestCacheImpl.getOrSet`: return the cached value when it is not `null`,
otherwise invoke the factory, store its result and return it.  The third
component records whether the factory was invoked. -/
def getOrSet (d : CacheData) (k : String) (f : Unit → Value) :
    Value × CacheData × Bool :=
  let cached := get d k
  if !cached.isNull then (cached, d, false)
  else
    let v := f ()
    (v, set d k v, true)

/-- `TestCacheImpl.getOrDefault`: `cached !== null ? cached : defaultValue`;
never writes. -/
def getOrDefault (d : CacheData) (k : String) (dv : Value) : Value :=
  let cached := get d k
  if !cached.isNull then cached else dv

/-- `TestCacheImpl.all`: a copy of the whole map. -/
def all (d : CacheData) : CacheData := d

/-- `TestCacheImpl.clear`: `this.data.clear()`. -/
def clear (_d : CacheData) : CacheData := []

/-- Two sequential `getOrSet` calls with the same key and factory and no
intervening operation: both results together with the total number of
factory invocations. -/
def getOrSetTwice (d : CacheData) (k : String) (f : Unit → Value) :
    Value × Value × Nat :=
  let r1 := getOrSet d k f
  let r2 := getOrSet r1.2.1 k f
  (r1.1, r2.1, (if r1.2.2 then 1 else 0) + (if r2.2.2 then 1 else 0))

end TestCacheImpl

theorem lookupKey_mapSet_self (d : CacheData) (k : String) (v : Value) :
    lookupKey (mapSet d k v) k = some v := by
  induction d with
  | nil => simp [mapSet, lookupKey]
  | cons e t ih =>
    by_cases h : e.1 = k
    · simp [mapSet, lookupKey, h]
    · simp [mapSet, lookupKey, h, ih]

theorem lookupKey_mapSet_other (d : CacheData) (k k' : String) (v : Value)
    (hne : k' ≠ k) : lookupKey (mapSet d k v) k' = lookupKey d k' := by
  have hk : ¬ (k = k') := fun hh => hne hh.symm
  induction d with
  | nil => simp [mapSet, lookupKey, hk]
  | cons e t ih =>
    obtain ⟨ek, ev⟩ := e
    by_cases h : ek = k
    · subst h
      simp [mapSet, lookupKey, hk]
    · simp [mapSet, lookupKey, h, ih]

theorem get_set_same (d : CacheData) (k : String) (v : Value) :
    TestCacheImpl.get (TestCacheImpl.set d k v) k = v := by
  simp [TestCacheImpl.get, TestCacheImpl.set, lookupKey_mapSet_self]

theorem isNull_iff_eq_null (v : Value) : v.isNull = true ↔ v = Value.null := by
  cases v <;> simp [Value.isNull]

theorem lookupKey_delPrefix_started (d : CacheData) (p k : String)
    (h : strStartsWith k p = true) :
    lookupKey (TestCacheImpl.delPrefix d p) k = none := by
  induction d with
  | nil => simp [TestCacheImpl.delPrefix, lookupKey]
  | cons e t ih =>
    obtain ⟨ek, ev⟩ := e
    by_cases hk : strStartsWith ek p = true
    · simpa [TestCacheImpl.delPrefix, List.filter_cons, hk] using ih
    · have hne : ek ≠ k := by
        intro hek
        exact hk (hek ▸ h)
      simp only [Bool.not_eq_true] at hk
      simpa [TestCacheImpl.delPrefix, List.filter_cons, hk, lookupKey, hne] using ih

theorem lookupKey_delPrefix_other (d : CacheData) (p k : String)
    (h : strStartsWith k p = false) :
    lookupKey (TestCacheImpl.delPrefix d p) k = lookupKey d k := by
  induction d with
  | nil => simp [TestCacheImpl.delPrefix, lookupKey]
  | cons e t ih =>
    obtain ⟨ek, ev⟩ := e
    by_cases hek : ek = k
    · subst hek
      simp [TestCacheImpl.delPrefix, List.filter_cons, h, lookupKey]
    · by_cases hk : strStartsWith ek p = true
      · simpa [TestCacheImpl.delPrefix, List.filter_cons, hk, lookupKey, hek] using ih
      · simp only [Bool.not_eq_true] at hk
        simpa [TestCacheImpl.delPrefix, List.filter_cons, hk, lookupKey, hek] using ih

/-- **C3.** For every key `k` and every value `v`, `set(k, v)` followed by
`get(k)` on the same store instance returns a value structurally equal to
`v` — the set/get round trip is lossless. -/
theorem c3_set_get_roundtrip (d : CacheData) (k : String) (v : Value) :
    TestCacheImpl.get (TestCacheImpl.set d k v) k = v :=
  get_set_same d k v

/-- **C4.** After `deletePrefix(p)`: `get(k)` is absent for every key that
starts with `p`, unchanged for every key that does not, and a prefix
matching zero entries leaves the whole store state unchanged. -/
theorem c4_delete_prefix_frame (d : CacheData) (p : String) :
    (∀ k, strStartsWith k p = true →
      TestCacheImpl.get (TestCacheImpl.delPrefix d p) k = Value.null) ∧
    (∀ k, strStartsWith k p = false →
      TestCacheImpl.get (TestCacheImpl.delPrefix d p) k = TestCacheImpl.get d k) ∧
    ((∀ e ∈ d, strStartsWith e.1 p = false) → TestCacheImpl.delPrefix d p = d) := by
  refine ⟨fun k hk => ?_, fun k hk => ?_, fun hall => ?_⟩
  · simp [TestCacheImpl.get, lookupKey_delPrefix_started d p k hk]
  · simp [TestCacheImpl.get, lookupKey_delPrefix_other d p k hk]
  · unfold TestCacheImpl.delPrefix
    rw [List.filter_eq_self]
    intro e he
    simp [hall e he]

/-- **C4 witness.** Concrete instance: with entries under `feeds_` and
`moments_`, deleting the `feeds_` prefix removes the feeds entry, preserves
the moments entry, and deleting an unmatched prefix is the identity. -/
theorem c4_delete_prefix_frame_witness :
    TestCacheImpl.get
      (TestCacheImpl.delPrefix
        [("feeds_normal_0_20", Value.str "A"), ("moments_1", Value.str "B")]
        "feeds_") "feeds_normal_0_20" = Value.null ∧
    TestCacheImpl.get
      (TestCacheImpl.delPrefix
        [("feeds_normal_0_20", Value.str "A"), ("moments_1", Value.str "B")]
        "feeds_") "moments_1" =
      TestCacheImpl.get
        [("feeds_normal_0_20", Value.str "A"), ("moments_1", Value.str "B")]
        "moments_1" ∧
    TestCacheImpl.delPrefix
      [("feeds_normal_0_20", Value.str "A"), ("moments_1", Value.str "B")]
      "zz_" =
      [("feeds_normal_0_20", Value.str "A"), ("moments_1", Value.str "B")] :=
  ⟨(c4_delete_prefix_frame _ "feeds_").1 "feeds_normal_0_20" (by decide),
   (c4_delete_prefix_frame _ "feeds_").2.1 "moments_1" (by decide),
   (c4_delete_prefix_frame _ "zz_").2.2 (by decide)⟩

/-- **C10.** A stored `null` is indistinguishable from absence: after
`set(k, null)`, `get(k)` returns the absent marker, `getOrDefault(k, d)`
returns the default, and `getOrSet(k, f)` treats the key as a miss and
invokes the factory again. -/
theorem c10_null_is_absent (d : CacheData) (k : String) (dv : Value)
    (f : Unit → Value) :
    TestCacheImpl.get (TestCacheImpl.set d k Value.null) k = Value.null ∧
    TestCacheImpl.getOrDefault (TestCacheImpl.set d k Value.null) k dv = dv ∧
    (TestCacheImpl.getOrSet (TestCacheImpl.set d k Value.null) k f).2.2 = true := by
  have hg := get_set_same d k Value.null
  refine ⟨hg, ?_, ?_⟩
  · simp [TestCacheImpl.getOrDefault, hg, Value.isNull]
  · simp [TestCacheImpl.getOrSet, hg, Value.isNull]

/-- **C5 counterexample.** The claim "calling getOrSet(k, factory) twice in
sequence invokes the factory exactly once" fails on the code: a factory
producing the absent marker `null` is invoked twice (the cached `null` is a
miss), and a factory for a key already holding a non-null value is invoked
zero times. -/
theorem c5_counterexample :
    (TestCacheImpl.getOrSetTwice [] "k" (fun _ => Value.null)).2.2 = 2 ∧
    (TestCacheImpl.getOrSetTwice [("k", Value.str "v")] "k"
      (fun _ => Value.str "w")).2.2 = 0 :=
  ⟨rfl, rfl⟩

/-- **C5 (amended).** Provided the factory never produces the `null` absent
marker: two sequential `getOrSet(k, factory)` calls with no intervening
delete return the same value both times, invoke the factory at most once,
and invoke it exactly once when `get(k)` was the absent marker beforehand. -/
theorem c5_get_or_set_single_invocation (d : CacheData) (k : String)
    (f : Unit → Value) (hf : ∀ u, (f u).isNull = false) :
    (TestCacheImpl.getOrSetTwice d k f).1 =
      (TestCacheImpl.getOrSetTwice d k f).2.1 ∧
    (TestCacheImpl.getOrSetTwice d k f).2.2 ≤ 1 ∧
    (TestCacheImpl.get d k = Value.null →
      TestCacheImpl.getOrSetTwice d k f = (f (), f (), 1)) := by
  by_cases h : TestCacheImpl.get d k = Value.null
  · have h2 := get_set_same d k (f ())
    have hnull : Value.isNull Value.null = true := rfl
    refine ⟨?_, ?_, fun _ => ?_⟩ <;>
      simp [TestCacheImpl.getOrSetTwice, TestCacheImpl.getOrSet, h, h2,
        hnull, hf ()]
  · have hb : (TestCacheImpl.get d k).isNull = false := by
      cases hv : (TestCacheImpl.get d k).isNull
      · rfl
      · exact absurd ((isNull_iff_eq_null _).1 hv) h
    refine ⟨?_, ?_, fun hc => absurd hc h⟩ <;>
      simp [TestCacheImpl.getOrSetTwice, TestCacheImpl.getOrSet, hb]

/-- **C5 witness.** Concrete instance: on the empty store with a factory
producing the string "v", the two calls both return "v" with one factory
invocation. -/
theorem c5_get_or_set_single_invocation_witness :
    TestCacheImpl.getOrSetTwice [] "k" (fun _ => Value.str "v") =
      (Value.str "v", Value.str "v", 1) :=
  (c5_get_or_set_single_invocation [] "k" (fun _ => Value.str "v")
    (fun _ => rfl)).2.2 rfl

/-- The three per-request store namespaces bound by the container middleware
(`cache`, `server.config`, `client.config`). -/
structure RequestStores where
  cacheNS : CacheData
  serverConfigNS : CacheData
  clientConfigNS : CacheData

/-- `ConfigService` route `DELETE /cache`
(src/server/src/services/config.ts): respond 401 when the caller is not an
admin, otherwise call `cache.clear()` on the ephemeral namespace and
respond 200 "OK". -/
def deleteCacheRoute (admin : Bool) (st : RequestStores) : Nat × RequestStores :=
  if !admin then (401, st)
  else (200, { st with cacheNS := TestCacheImpl.clear st.cacheNS })

/-- **C8.** The admin clear-cache action empties only the ephemeral cache
namespace, leaves both configuration namespaces untouched (and is refused
without admin rights, leaving everything unchanged); on any populated
store, `clear()` followed by `all()` yields the empty mapping. -/
theorem c8_clear_cache_frame (admin : Bool) (st : RequestStores) :
    (admin = true → deleteCacheRoute admin st =
      (200, ⟨[], st.serverConfigNS, st.clientConfigNS⟩)) ∧
    (admin = false → deleteCacheRoute admin st = (401, st)) ∧
    (∀ d : CacheData, TestCacheImpl.all (TestCacheImpl.clear d) = []) := by
  refine ⟨fun ha => ?_, fun ha => ?_, fun d => rfl⟩
  · subst ha
    rfl
  · subst ha
    rfl

/-- **C8 witness.** Concrete instance: a cache namespace with five keys is
emptied while both config namespaces survive; the non-admin call is a 401
no-op; clear-then-all on the five-key map is empty. -/
theorem c8_clear_cache_frame_witness :
    deleteCacheRoute true
      ⟨[("feeds_normal_0_20", Value.str "A"), ("feeds_normal_1_20", Value.str "B"),
        ("moments_1", Value.str "C"), ("comments_1", Value.str "D"),
        ("search_x", Value.str "E")],
       [("webhook_url", Value.str "https://example.com")],
       [("site.name", Value.str "Rin")]⟩ =
      (200, ⟨[], [("webhook_url", Value.str "https://example.com")],
        [("site.name", Value.str "Rin")]⟩) ∧
    deleteCacheRoute false
      ⟨[("feeds_normal_0_20", Value.str "A")], [], []⟩ =
      (401, ⟨[("feeds_normal_0_20", Value.str "A")], [], []⟩) ∧
    TestCacheImpl.all (TestCacheImpl.clear
      [("k1", Value.str "1"), ("k2", Value.str "2"), ("k3", Value.str "3"),
       ("k4", Value.str "4"), ("k5", Value.str "5")]) = [] :=
  ⟨(c8_clear_cache_frame true _).1 rfl,
   (c8_clear_cache_frame false _).2.1 rfl,
   (c8_clear_cache_frame true ⟨[], [], []⟩).2.2 _⟩

/-- `SENSITIVE_FIELDS` (src/server/src/services/config.ts): fields never
exposed to the frontend. -/
def SENSITIVE_FIELDS : List String := ["ai_summary.api_key"]

/-- `maskSensitiveFields` (src/server/src/services/config.ts): every
sensitive field whose value is truthy is replaced by the fixed mask string;
all other fields pass through unchanged. -/
def maskSensitiveFields (config : CacheData) : CacheData :=
  config.map (fun e =>
    if e.1 ∈ SENSITIVE_FIELDS ∧ e.2.truthy = true then (e.1, Value.str "••••••••")
    else e)

/-- The AI configuration stored in the relational `info` table
(keys `ai_summary.*`). -/
structure AIConfig where
  enabled : Bool
  provider : String
  model : String
  api_url : String
  api_key : String

/-- Modelled from the spec: `getAIConfigForFrontend` (src/utils/db-config.ts
is not among the sources at hand) reports, per the masking contract and the
config-service tests, the non-secret AI fields plus an `api_key_set` flag
telling whether a non-empty API key is stored — never the key itself. -/
def apiKeySet (ai : AIConfig) : Bool := ai.api_key != ""

/-- The `GET /:type` server branch (src/server/src/services/config.ts):
`serverConfig.all()` is materialized as an object, the five flattened
`ai_summary.*` keys are assigned on top of it (`api_key` as mask-or-empty
depending on `api_key_set`), and `maskSensitiveFields` is applied to the
result. -/
def serverConfigResponse (serverNS : CacheData) (ai : AIConfig) : CacheData :=
  let c0 := TestCacheImpl.all serverNS
  let c1 := mapSet c0 "ai_summary.enabled" (Value.str (toString ai.enabled))
  let c2 := mapSet c1 "ai_summary.provider" (Value.str ai.provider)
  let c3 := mapSet c2 "ai_summary.model" (Value.str ai.model)
  let c4 := mapSet c3 "ai_summary.api_url" (Value.str ai.api_url)
  let c5 := mapSet c4 "ai_summary.api_key"
    (Value.str (if apiKeySet ai then "••••••••" else ""))
  maskSensitiveFields c5

theorem lookupKey_maskSensitiveFields (d : CacheData) (k : String) :
    lookupKey (maskSensitiveFields d) k =
      (lookupKey d k).map (fun v =>
        if k ∈ SENSITIVE_FIELDS ∧ v.truthy = true then Value.str "••••••••"
        else v) := by
  induction d with
  | nil => simp [maskSensitiveFields, lookupKey]
  | cons e t ih =>
    obtain ⟨ek, ev⟩ := e
    by_cases hk : ek = k
    · subst hk
      by_cases hm : ek ∈ SENSITIVE_FIELDS ∧ ev.truthy = true
      · simp [maskSensitiveFields, lookupKey, hm]
      · simp [maskSensitiveFields, lookupKey, hm]
    · by_cases hm : ek ∈ SENSITIVE_FIELDS ∧ ev.truthy = true
      · simpa [maskSensitiveFields, lookupKey, hm, hk] using ih
      · simpa [maskSensitiveFields, lookupKey, hm, hk] using ih

/-- **C2.** Whenever the stored AI API key is non-empty, the GET
server-config response carries the fixed mask string under
`ai_summary.api_key`; and two configurations differing only in the (both
non-empty) stored key values produce identical responses — the secret never
flows to the caller. -/
theorem c2_api_key_masked (ns : CacheData) (ai : AIConfig) (k1 k2 : String)
    (h1 : k1 ≠ "") (h2 : k2 ≠ "") :
    lookupKey (serverConfigResponse ns { ai with api_key := k1 })
      "ai_summary.api_key" = some (Value.str "••••••••") ∧
    serverConfigResponse ns { ai with api_key := k1 } =
      serverConfigResponse ns { ai with api_key := k2 } := by
  have hk1 : apiKeySet { ai with api_key := k1 } = true := by
    simp [apiKeySet, h1]
  have hk2 : apiKeySet { ai with api_key := k2 } = true := by
    simp [apiKeySet, h2]
  constructor
  · rw [serverConfigResponse, lookupKey_maskSensitiveFields]
    rw [hk1, if_pos rfl, lookupKey_mapSet_self]
    simp [SENSITIVE_FIELDS, Value.truthy]
  · rw [serverConfigResponse, serverConfigResponse, hk1, hk2]

/-- **C2 witness.** Concrete instance: two server configurations whose
stored API keys are the distinct non-empty strings "secret_key_123" and
"other_secret" both answer with the mask under `ai_summary.api_key`, and
their responses coincide. -/
theorem c2_api_key_masked_witness :
    lookupKey
      (serverConfigResponse [("webhook_url", Value.str "https://example.com")]
        ⟨true, "openai", "gpt-4o-mini", "https://api.openai.com/v1",
          "secret_key_123"⟩)
      "ai_summary.api_key" = some (Value.str "••••••••") ∧
    serverConfigResponse [("webhook_url", Value.str "https://example.com")]
        ⟨true, "openai", "gpt-4o-mini", "https://api.openai.com/v1",
          "secret_key_123"⟩ =
      serverConfigResponse [("webhook_url", Value.str "https://example.com")]
        ⟨true, "openai", "gpt-4o-mini", "https://api.openai.com/v1",
          "other_secret"⟩ :=
  c2_api_key_masked [("webhook_url", Value.str "https://example.com")]
    ⟨true, "openai", "gpt-4o-mini", "https://api.openai.com/v1", "ignored"⟩
    "secret_key_123" "other_secret" (by decide) (by decide)

/-- The state of one container slot: either the construction promise is
still in flight (its eventual instance is `v`, factories being
deterministic) or the instance has been memoized in `instances`. -/
inductive Slot where
  | inflight (v : Value)
  | done (v : Value)

/-- The state of a `LazyInitContainer` (src/server/src/core/types.ts): the
`instances` and `initializing` maps, merged into one keyed map — the JS
code never lets a key rest in both at once. -/
abbrev ContainerState := List (String × Slot)

/-- First-match slot lookup, the `Map.has`/`Map.get` pair of the container. -/
def lookupSlot : ContainerState → String → Option Slot
  | [], _ => none
  | e :: t, k => if e.1 = k then some e.2 else lookupSlot t k

/-- `LazyInitContainer.get`: return the memoized instance when present,
return the in-flight promise when construction has started, otherwise
invoke the factory, record the in-flight promise and return it.  The third
component records whether the factory was invoked. -/
def containerGet (st : ContainerState) (k : String) (f : Unit → Value) :
    Value × ContainerState × Bool :=
  match lookupSlot st k with
  | some (.done v) => (v, st, false)
  | some (.inflight v) => (v, st, false)
  | none =>
      let v := f ()
      (v, st ++ [(k, Slot.inflight v)], true)

/-- The completion callback of the construction promise
(`.then(instance => { instances.set; initializing.delete })`): the
in-flight slot for the key becomes a memoized one. -/
def settleSlot : ContainerState → String → ContainerState
  | [], _ => []
  | (ek, s) :: t, k =>
      if ek = k then
        (ek, match s with | .inflight v => Slot.done v | x => x) :: t
      else (ek, s) :: settleSlot t k

theorem lookupSlot_append_of_none (st : ContainerState) (k : String)
    (s : Slot) (h : lookupSlot st k = none) :
    lookupSlot (st ++ [(k, s)]) k = some s := by
  induction st with
  | nil => simp [lookupSlot]
  | cons e t ih =>
    by_cases he : e.1 = k
    · simp [lookupSlot, he] at h
    · simp only [lookupSlot, he, if_neg he, List.cons_append] at h ⊢
      exact ih h

theorem lookupSlot_settleSlot (st : ContainerState) (k : String) :
    lookupSlot (settleSlot st k) k =
      (lookupSlot st k).map (fun s => match s with
        | .inflight v => Slot.done v
        | x => x) := by
  induction st with
  | nil => simp [settleSlot, lookupSlot]
  | cons e t ih =>
    obtain ⟨ek, s⟩ := e
    by_cases he : ek = k
    · subst he
      simp [settleSlot, lookupSlot]
    · simp [settleSlot, lookupSlot, he, ih]

/-- **C9.** The per-request lazy-initialization container invokes a key's
factory at most once: starting from any container state, after a first
`get` the second `get` with the same key — whether the first construction
is still in flight or has been settled in between — returns the very value
the first `get` produced, leaves the state alone, and never invokes its
factory, so the two `get` calls perform at most one factory invocation in
total. -/
theorem c9_container_single_flight (st : ContainerState) (k : String)
    (f g : Unit → Value) :
    (containerGet (containerGet st k f).2.1 k g).1 = (containerGet st k f).1 ∧
    (containerGet (containerGet st k f).2.1 k g).2.1 = (containerGet st k f).2.1 ∧
    (containerGet (containerGet st k f).2.1 k g).2.2 = false ∧
    (containerGet (settleSlot (containerGet st k f).2.1 k) k g).1 =
      (containerGet st k f).1 ∧
    (containerGet (settleSlot (containerGet st k f).2.1 k) k g).2.2 = false ∧
    (if (containerGet st k f).2.2 then 1 else 0) +
      (if (containerGet (containerGet st k f).2.1 k g).2.2 then 1 else 0) ≤ 1 := by
  match hl : lookupSlot st k with
  | some (Slot.done v) =>
    simp [containerGet, hl, lookupSlot_settleSlot]
  | some (Slot.inflight v) =>
    simp [containerGet, hl, lookupSlot_settleSlot]
  | none =>
    have h1 : containerGet st k f =
        (f (), st ++ [(k, Slot.inflight (f ()))], true) := by
      simp [containerGet, hl]
    have h2 := lookupSlot_append_of_none st k (Slot.inflight (f ())) hl
    rw [h1]
    simp [containerGet, h2, lookupSlot_settleSlot]

/-- Modelled from the spec: the Store facade over one namespace
(`src/utils/cache.ts` is not among the sources at hand; the test double
stubs buffering and suffix queries).  Per §4.1/§4.3 an instance keeps the
materialized in-memory map of its namespace (`view`) together with the
buffered writes not yet flushed (`buffered`); buffered writes are visible
locally at once and become durable — visible to instances built afterwards
from the backend — only on `save()`. -/
structure Store where
  view : CacheData
  buffered : CacheData

/-- A fresh Store instance over a namespace whose persisted contents are
`b`: the namespace is materialized, nothing is buffered. -/
def Store.fromBackend (b : CacheData) : Store := ⟨b, []⟩

/-- `get(key)` on an instance: point lookup in the materialized view, with
the `null` absent marker for a missing key. -/
def Store.get (s : Store) (k : String) : Value :=
  (lookupKey s.view k).getD Value.null

/-- `set(key, value, persistImmediately)`: always updates the local view;
an immediate write also persists to the backend, a deferred one only joins
the pending-writes set. -/
def Store.setOp (s : Store) (k : String) (v : Value) (persist : Bool)
    (backend : CacheData) : Store × CacheData :=
  if persist then (⟨mapSet s.view k v, s.buffered⟩, mapSet backend k v)
  else (⟨mapSet s.view k v, mapSet s.buffered k v⟩, backend)

/-- `save()`: merge every buffered entry into the backend in one flush and
drop the buffer. -/
def Store.saveOp (s : Store) (backend : CacheData) : Store × CacheData :=
  (⟨s.view, []⟩, s.buffered.foldl (fun b e => mapSet b e.1 e.2) backend)

/-- `getBySuffix(suffix)`: the values of all current keys ending in the
suffix. -/
def Store.getBySuffix (s : Store) (suffix : String) : List Value :=
  (s.view.filter (fun e => strEndsWith e.1 suffix)).map (fun e => e.2)

/-- **C6.** `getBySuffix(s)` returns exactly the current values of the keys
ending in `s` — a value is returned precisely when some key carrying it
ends in the suffix — and the empty list when no key ends in `s`. -/
theorem c6_get_by_suffix_exact (s : Store) (suf : String) :
    (∀ v : Value, v ∈ Store.getBySuffix s suf ↔
      ∃ k, (k, v) ∈ s.view ∧ strEndsWith k suf = true) ∧
    ((∀ e ∈ s.view, strEndsWith e.1 suf = false) →
      Store.getBySuffix s suf = []) := by
  constructor
  · intro v
    simp only [Store.getBySuffix, List.mem_map, List.mem_filter]
    constructor
    · rintro ⟨⟨k', v'⟩, ⟨hmem, hsuf⟩, hv⟩
      exact ⟨k', by simpa [← hv] using hmem, hsuf⟩
    · rintro ⟨k', hmem, hsuf⟩
      exact ⟨(k', v), ⟨hmem, hsuf⟩, rfl⟩
  · intro hall
    simp only [Store.getBySuffix, List.map_eq_nil_iff, List.filter_eq_nil_iff]
    intro e he
    simp [hall e he]

/-- **C6 witness.** Concrete instance: in a store holding the navigation
entry `12_previous_feed_34` and a feeds entry, the suffix query for
`previous_feed_34` returns the navigation value, and a store without any
matching key answers with the empty list. -/
theorem c6_get_by_suffix_exact_witness :
    Value.str "P" ∈ Store.getBySuffix
      (Store.fromBackend [("12_previous_feed_34", Value.str "P"),
        ("feeds_normal_0_20", Value.str "A")]) "previous_feed_34" ∧
    Store.getBySuffix
      (Store.fromBackend [("feeds_normal_0_20", Value.str "A")])
      "previous_feed_34" = [] :=
  ⟨((c6_get_by_suffix_exact
      (Store.fromBackend [("12_previous_feed_34", Value.str "P"),
        ("feeds_normal_0_20", Value.str "A")]) "previous_feed_34").1
      (Value.str "P")).mpr
      ⟨"12_previous_feed_34", List.Mem.head _, by decide⟩,
   (c6_get_by_suffix_exact
      (Store.fromBackend [("feeds_normal_0_20", Value.str "A")])
      "previous_feed_34").2 (by decide)⟩

/-- **C7.** A deferred `set(k, v, false)` is immediately visible through
`get` on the same instance, leaves the backend untouched — so a separate
instance over the same namespace still reads the old contents — and
becomes visible to fresh instances once the buffering instance calls
`save()`. -/
theorem c7_buffered_write_visibility (b : CacheData) (k : String) (v : Value) :
    Store.get (Store.setOp (Store.fromBackend b) k v false b).1 k = v ∧
    (Store.setOp (Store.fromBackend b) k v false b).2 = b ∧
    Store.get (Store.fromBackend
      (Store.setOp (Store.fromBackend b) k v false b).2) k =
      Store.get (Store.fromBackend b) k ∧
    Store.get (Store.fromBackend
      (Store.saveOp (Store.setOp (Store.fromBackend b) k v false b).1
        (Store.setOp (Store.fromBackend b) k v false b).2).2) k = v := by
  refine ⟨?_, rfl, rfl, ?_⟩
  · simp [Store.setOp, Store.fromBackend, Store.get, lookupKey_mapSet_self]
  · simp [Store.setOp, Store.fromBackend, Store.saveOp, Store.get, mapSet,
      lookupKey_mapSet_self]

/-- One construction `new CacheImpl(db, env, nsArg, backendArg?)` of a
store instance. -/
structure CacheCtorCall where
  nsArg : String
  backendArg : Option String
deriving DecidableEq

/-- The store constructions performed by `initContainerMiddleware`
(src/server/src/core/types.ts): the ephemeral cache, the server config —
with the explicit "database" backend argument — and the client config. -/
def initContainerCtorCalls : List CacheCtorCall :=
  [⟨"cache", none⟩, ⟨"server.config", some "database"⟩, ⟨"client.config", none⟩]

/-- The store constructions performed by the `scheduled` worker entry
point: the same three namespaces, the server config again forced to the
"database" backend. -/
def scheduledCtorCalls : List CacheCtorCall :=
  [⟨"cache", none⟩, ⟨"server.config", some "database"⟩, ⟨"client.config", none⟩]

/-- The two persistence backend variants of §2. -/
inductive BackendKind where
  | relational
  | objectStore
deriving DecidableEq

/-- Modelled from the spec: the backend selection of `CacheImpl`
(src/utils/cache.ts is not among the sources at hand) — an explicit
"database" constructor argument binds the namespace to the relational
backend; otherwise the configured storage mode (`CACHE_STORAGE_MODE`)
decides. -/
def resolveBackend (envMode : String) (call : CacheCtorCall) : BackendKind :=
  match call.backendArg with
  | some "database" => .relational
  | some _ => .objectStore
  | none => if envMode = "database" then .relational else .objectStore

/-- The mutating and reading operations of the Store facade (§4.1). -/
inductive StoreOp where
  | setKV (k : String) (v : Value) (persist : Bool)
  | delKV (k : String) (persist : Bool)
  | delByPre (p : String)
  | saveAll
  | clearAll
  | readKV (k : String)

/-- Which operations flush to the persistence backend (§4.1: prefix
deletion, `save` and `clear` always do; `set`/`delete` when asked to
persist immediately; reads never). -/
def StoreOp.persists : StoreOp → Bool
  | .setKV _ _ p => p
  | .delKV _ p => p
  | .delByPre _ => true
  | .saveAll => true
  | .clearAll => true
  | .readKV _ => false

/-- Which namespaces each shared persistence resource has been written
for. -/
structure BackendLog where
  relationalWrites : List String
  objectWrites : List String

/-- Modelled from the spec: §4.2/§4.3 — a relational-backed store persists
through upserts/deletes on the shared table, an object-backed store
persists by re-uploading its namespace blob; reads touch neither. -/
def applyOpLog (kind : BackendKind) (ns : String) (log : BackendLog)
    (op : StoreOp) : BackendLog :=
  if op.persists then
    match kind with
    | .relational => { log with relationalWrites := log.relationalWrites ++ [ns] }
    | .objectStore => { log with objectWrites := log.objectWrites ++ [ns] }
  else log

/-- Run a sequence of store operations over one namespace, collecting the
backend writes they cause. -/
def runStoreOps (kind : BackendKind) (ns : String) (ops : List StoreOp) :
    BackendLog :=
  ops.foldl (applyOpLog kind ns) ⟨[], []⟩

theorem objectWrites_foldl_relational (ns : String) (ops : List StoreOp)
    (log : BackendLog) :
    (ops.foldl (applyOpLog BackendKind.relational ns) log).objectWrites =
      log.objectWrites := by
  induction ops generalizing log with
  | nil => rfl
  | cons op t ih =>
    rw [List.foldl_cons, ih]
    by_cases hp : op.persists = true
    · simp [applyOpLog, hp]
    · simp only [Bool.not_eq_true] at hp
      simp [applyOpLog, hp]

/-- **C1.** Every construction of the server-config store — in the request
middleware and in the scheduled job alike — passes the explicit "database"
backend argument, so the namespace binds to the relational backend and no
sequence of store operations ever produces an object-store write for
"server.config", whatever the configured storage mode. -/
theorem c1_server_config_relational (call : CacheCtorCall)
    (hmem : call ∈ initContainerCtorCalls ++ scheduledCtorCalls)
    (hns : call.nsArg = "server.config") :
    call.backendArg = some "database" ∧
    ∀ (envMode : String) (ops : List StoreOp),
      (runStoreOps (resolveBackend envMode call) call.nsArg ops).objectWrites
        = [] := by
  have hcall : call = ⟨"server.config", some "database"⟩ := by
    fin_cases hmem <;> first | rfl | exact absurd hns (by decide)
  subst hcall
  refine ⟨rfl, fun envMode ops => ?_⟩
  have hk : resolveBackend envMode ⟨"server.config", some "database"⟩ =
      BackendKind.relational := rfl
  rw [hk, runStoreOps, objectWrites_foldl_relational]

/-- **C1 witness.** Concrete instance: the middleware's server-config
construction carries the "database" argument, and running a persisting
workload (an immediate set, a save and a clear) over the store it resolves
— even under an object-storage mode — writes nothing to the object
store. -/
theorem c1_server_config_relational_witness :
    (⟨"server.config", some "database"⟩ : CacheCtorCall).backendArg =
      some "database" ∧
    (runStoreOps
      (resolveBackend "s3" ⟨"server.config", some "database"⟩)
      "server.config"
      [StoreOp.setKV "ai.key" (Value.str "secret") true, StoreOp.saveAll,
        StoreOp.clearAll]).objectWrites = [] := by
  have h := c1_server_config_relational ⟨"server.config", some "database"⟩
    (by decide) rfl
  exact ⟨h.1, h.2 "s3" [StoreOp.setKV "ai.key" (Value.str "secret") true,
    StoreOp.saveAll, StoreOp.clearAll]⟩

end Rin
